import Mathlib

/-!
Verification of the token ledger and redemption engine of the
CHOBBERX/Telegram_bot_run repository.

The definitions below are a shallow embedding of the ledger-relevant code:

* `RateLimiter.check_rate_limit` from `main.py` (class `RateLimiter`),
* the new-user path of `TelegramBotAdvanced.start_command` from `main.py`,
* `TelegramBotAdvanced.handle_unlock` from `main.py`,
* `AdminToolkit.bulk_token_operation` from `adimn_tools.py`,
* the constants from `config.py`.

SQLite rows are modelled as Lean structures; tables as lists; `UPDATE ...
WHERE id = ?` as a map over the list touching the rows with that id;
`INSERT` as an append.  Fields that no ledger claim mentions (usernames,
join dates, `total_spent`, `loyalty_points`, the `logs` table, file ids)
are omitted.  Timestamps are whole seconds (`Nat`); Python's
`timedelta.seconds` component is modelled exactly as the difference
modulo 86400.
-/

/-! ## Configuration constants (`config.py`) -/

def REFERRAL_BONUS : Int := 2
def LOYALTY_THRESHOLD : Int := 10
def LOYALTY_BONUS : Int := 5
def MAX_REQUESTS_PER_MINUTE : Nat := 30
def MAX_REDEMPTIONS_PER_DAY : Nat := 50

/-! ## Data model -/

/-- A row of the `users` table (ledger-relevant columns). -/
structure User where
  id : Nat
  tokens : Int
  redemptions : Int
  is_active : Bool
  referral_by : Option Nat
deriving DecidableEq, Repr

/-- A row of the `token_transactions` table. -/
structure Txn where
  user_id : Nat
  amount : Int
  transaction_type : String
  description : String
  content_id : Option Nat
deriving DecidableEq, Repr

/-- A row of the `referrals` table. -/
structure Referral where
  referrer_id : Nat
  referred_id : Nat
  bonus_amount : Int
deriving DecidableEq, Repr

/-- A row of the `content` table (ledger-relevant columns). -/
structure Content where
  id : Nat
  caption : String
  views : Int
  is_active : Bool
deriving DecidableEq, Repr

/-- The database state: the four tables the ledger touches. -/
structure DB where
  users : List User
  contents : List Content
  transactions : List Txn
  referrals : List Referral
deriving DecidableEq, Repr

def DB.empty : DB := ⟨[], [], [], []⟩

/-- The list of user ids, in row order. -/
def DB.ids (db : DB) : List Nat := db.users.map User.id

/-- `SELECT * FROM users WHERE id = ?` (first row). -/
def getUser (db : DB) (uid : Nat) : Option User :=
  db.users.find? (fun u => u.id == uid)

/-- `UPDATE users SET ... WHERE id = ?`: applies `f` to every row with id
`uid`. -/
def updateUser (db : DB) (uid : Nat) (f : User → User) : DB :=
  {db with users := db.users.map (fun u => if u.id == uid then f u else u)}

/-- `INSERT INTO token_transactions ...`. -/
def addTxn (db : DB) (t : Txn) : DB :=
  {db with transactions := db.transactions ++ [t]}

/-- `SELECT ... FROM content WHERE id = ? AND is_active = TRUE`. -/
def findContent (db : DB) (cid : Nat) : Option Content :=
  db.contents.find? (fun c => c.id == cid && c.is_active)

/-- `UPDATE content SET views = views + 1 WHERE id = ?`. -/
def incViews (db : DB) (cid : Nat) : DB :=
  {db with contents :=
    db.contents.map (fun c => if c.id == cid then {c with views := c.views + 1} else c)}

/-- Signed sum of all transaction amounts recorded for user `uid`. -/
def txnSum (db : DB) (uid : Nat) : Int :=
  ((db.transactions.filter (fun t => t.user_id == uid)).map Txn.amount).sum

/-- Python `caption[:50]` and friends: the first `n` characters. -/
def strTake (s : String) (n : Nat) : String := ⟨s.data.take n⟩

/-! ## `start_command` (`main.py`, new-user path)

The referral argument is the id parsed from a `ref_<id>` start parameter
(`None` when absent or malformed); the parsing itself is I/O shell.  A
self-referral is discarded before the database is touched, exactly as in
the source.  A new row of the `users` table starts with `tokens = 0`
before the welcome bonus, matching the spec's lifecycle (the schema file
`database_setup.py` is not part of the sources). -/

/-- The referrer id actually used: the parsed `ref_` argument with
self-referrals discarded (`if referral_by == user.id: referral_by = None`). -/
def resolveReferrer (uid : Nat) (refArg : Option Nat) : Option Nat :=
  match refArg with
  | some r => if r == uid then none else some r
  | none => none

def start_command (db : DB) (uid : Nat) (uname : String) (refArg : Option Nat) : DB :=
  match getUser db uid with
  | some _ => db
  | none =>
    let db1 : DB :=
      {db with users := db.users ++ [⟨uid, 0, 0, true, resolveReferrer uid refArg⟩]}
    let db2 : DB :=
      match resolveReferrer uid refArg with
      | none => db1
      | some r =>
        let dbA := {db1 with referrals := db1.referrals ++ [⟨r, uid, REFERRAL_BONUS⟩]}
        let dbB := updateUser dbA r (fun u => {u with tokens := u.tokens + REFERRAL_BONUS})
        addTxn dbB ⟨r, REFERRAL_BONUS, "referral_bonus", "Referred user @" ++ uname, none⟩
    let db3 := updateUser db2 uid (fun u => {u with tokens := u.tokens + 1})
    addTxn db3 ⟨uid, 1, "welcome_bonus", "Welcome to the platform", none⟩

/-! ## `handle_media` upload (`main.py`)

Only the `INSERT INTO content ...` matters to the ledger.  A fresh row
starts with zero views and is active (the schema defaults; `redeem`
filters on `is_active = TRUE` and freshly uploaded content is served). -/

def upload_content (db : DB) (cid : Nat) (caption : String) : DB :=
  {db with contents := db.contents ++ [⟨cid, caption, 0, true⟩]}

/-! ## `handle_unlock` (`main.py`) -/

inductive UnlockResult
  | insufficient
  | contentMissing
  | delivered (remaining : Int) (totalRedemptions : Int)
  | refunded
deriving DecidableEq, Repr

/-- The debit sub-step: decrement tokens, increment redemptions, bump the
view counter, log the `redeem` transaction. -/
def unlockDebit (db : DB) (uid cid : Nat) (c : Content) : DB :=
  addTxn
    (incViews
      (updateUser db uid
        (fun v => {v with tokens := v.tokens - 1, redemptions := v.redemptions + 1}))
      cid)
    ⟨uid, -1, "redeem", "Unlocked: " ++ strTake c.caption 50, some cid⟩

/-- The loyalty sub-step: fires iff the new redemption count is an exact
multiple of `LOYALTY_THRESHOLD`. -/
def unlockLoyalty (db : DB) (uid : Nat) (newRedemptions : Int) : DB :=
  if newRedemptions % LOYALTY_THRESHOLD == 0 then
    addTxn
      (updateUser db uid (fun v => {v with tokens := v.tokens + LOYALTY_BONUS}))
      ⟨uid, LOYALTY_BONUS, "loyalty_bonus",
        "Milestone reward for " ++ toString newRedemptions ++ " redemptions", none⟩
  else db

/-- The compensation performed when sending the content fails: credit one
token back, decrement redemptions, log a `refund` transaction.  Note the
source INSERT does not fill the `content_id` column; the content id only
appears in the description text. -/
def unlockRefund (db : DB) (uid cid : Nat) : DB :=
  addTxn
    (updateUser db uid
      (fun v => {v with tokens := v.tokens + 1, redemptions := v.redemptions - 1}))
    ⟨uid, 1, "refund", "Failed to send content " ++ toString (cid : Int), none⟩

/-- `handle_unlock` for user `uid` and content `cid`; `deliveryOk` is the
outcome of the external send step. -/
def handle_unlock (db : DB) (uid cid : Nat) (deliveryOk : Bool) : DB × UnlockResult :=
  match getUser db uid with
  | none => (db, .insufficient)
  | some u =>
    if u.tokens ≤ 0 then (db, .insufficient)
    else
      match findContent db cid with
      | none => (db, .contentMissing)
      | some c =>
        let db4 := unlockLoyalty (unlockDebit db uid cid c) uid (u.redemptions + 1)
        if deliveryOk then
          (db4, .delivered (((getUser db4 uid).map User.tokens).getD 0) (u.redemptions + 1))
        else
          (unlockRefund db4 uid cid, .refunded)

/-! ## `bulk_token_operation` (`adimn_tools.py`) -/

/-- The optional user filter of `bulk_token_operation`. -/
structure UserFilter where
  min_tokens : Option Int := none
  max_tokens : Option Int := none
  min_redemptions : Option Int := none
deriving DecidableEq, Repr

/-- The `SELECT id FROM users WHERE is_active = TRUE AND ...` filter. -/
def matchesFilter (f : UserFilter) (u : User) : Bool :=
  u.is_active &&
  (match f.min_tokens with | none => true | some m => decide (m ≤ u.tokens)) &&
  (match f.max_tokens with | none => true | some m => decide (u.tokens ≤ m)) &&
  (match f.min_redemptions with | none => true | some m => decide (m ≤ u.redemptions))

/-- One iteration of the bulk loop: the UPDATE and transaction INSERT for
one target user id.  An unrecognised operation matches no branch and
leaves the database untouched. -/
def applyBulkOne (db : DB) (op : String) (amount : Int) (uid : Nat) : DB :=
  if op == "add" then
    addTxn (updateUser db uid (fun u => {u with tokens := u.tokens + amount}))
      ⟨uid, amount, "bulk_add", "Bulk token addition by admin", none⟩
  else if op == "subtract" then
    addTxn (updateUser db uid (fun u => {u with tokens := max 0 (u.tokens - amount)}))
      ⟨uid, -amount, "bulk_subtract", "Bulk token subtraction by admin", none⟩
  else if op == "set" then
    addTxn (updateUser db uid (fun u => {u with tokens := amount}))
      ⟨uid, amount, "bulk_set", "Bulk token set to " ++ toString amount ++ " by admin", none⟩
  else db

/-- `bulk_token_operation`: select the target ids, apply the per-user
body to each, return the new state and the affected count (`affected_count`
is incremented for every target regardless of the operation branch). -/
def bulk_token_operation (db : DB) (op : String) (amount : Int) (f : UserFilter) : DB × Nat :=
  let targets := (db.users.filter (matchesFilter f)).map User.id
  (targets.foldl (fun d uid => applyBulkOne d op amount uid) db, targets.length)

/-! ## `RateLimiter` (`main.py`) -/

/-- In-memory rate-limiter state: per-user request timestamp lists and
per-user per-day redemption counters (Python dicts with absent keys read
as empty/zero). -/
structure RateLimiter where
  user_requests : Nat → List Nat
  user_redemptions : Nat → Nat → Nat

def RateLimiter.empty : RateLimiter := ⟨fun _ => [], fun _ _ => 0⟩

/-- Python `(now - req_time).seconds` for whole-second timestamps: the
seconds component of the timedelta, i.e. the difference modulo 86400
(not the total elapsed seconds). -/
def tdSeconds (now req : Nat) : Int := ((now : Int) - (req : Int)) % 86400

/-- `RateLimiter.check_rate_limit`; returns the decision and the updated
limiter state. -/
def check_rate_limit (rl : RateLimiter) (uid : Nat) (action : String) (now : Nat) :
    Bool × RateLimiter :=
  if action == "request" then
    let cleaned := (rl.user_requests uid).filter (fun req => tdSeconds now req < 60)
    if MAX_REQUESTS_PER_MINUTE ≤ cleaned.length then
      (false, {rl with user_requests := fun i => if i == uid then cleaned else rl.user_requests i})
    else
      (true, {rl with user_requests :=
        fun i => if i == uid then cleaned ++ [now] else rl.user_requests i})
  else if action == "redemption" then
    let today := now / 86400
    if MAX_REDEMPTIONS_PER_DAY ≤ rl.user_redemptions uid today then
      (false, rl)
    else
      (true, {rl with user_redemptions :=
        fun i d => if i == uid && d == today then rl.user_redemptions i d + 1
                   else rl.user_redemptions i d})
  else
    (true, rl)

/-- The spec's trailing-60-second window: recorded calls no older than 60
seconds at time `now`. -/
def specTrailingWindowCount (l : List Nat) (now : Nat) : Nat :=
  (l.filter (fun r => r ≤ now && now - r < 60)).length

/-! ## Basic bookkeeping lemmas -/

theorem users_addTxn (db : DB) (t : Txn) : (addTxn db t).users = db.users := rfl

theorem ids_addTxn (db : DB) (t : Txn) : DB.ids (addTxn db t) = DB.ids db := rfl

theorem txns_addTxn (db : DB) (t : Txn) :
    (addTxn db t).transactions = db.transactions ++ [t] := rfl

theorem txns_updateUser (db : DB) (uid : Nat) (f : User → User) :
    (updateUser db uid f).transactions = db.transactions := rfl

theorem users_updateUser (db : DB) (uid : Nat) (f : User → User) :
    (updateUser db uid f).users = db.users.map (fun u => if u.id == uid then f u else u) := rfl

theorem txnSum_updateUser (db : DB) (uid : Nat) (f : User → User) (i : Nat) :
    txnSum (updateUser db uid f) i = txnSum db i := rfl

theorem txnSum_incViews (db : DB) (cid : Nat) (i : Nat) :
    txnSum (incViews db cid) i = txnSum db i := rfl

theorem users_incViews (db : DB) (cid : Nat) : (incViews db cid).users = db.users := rfl

theorem ids_updateUser (db : DB) (uid : Nat) (f : User → User)
    (hf : ∀ u, (f u).id = u.id) : DB.ids (updateUser db uid f) = DB.ids db := by
  unfold DB.ids updateUser
  simp only [List.map_map]
  refine List.map_congr_left (fun u _ => ?_)
  by_cases h : u.id == uid <;> simp [Function.comp, h, hf]

theorem txnSum_addTxn (db : DB) (t : Txn) (i : Nat) :
    txnSum (addTxn db t) i = txnSum db i + (if t.user_id = i then t.amount else 0) := by
  unfold txnSum
  rw [txns_addTxn, List.filter_append]
  by_cases h : t.user_id = i <;> simp [h]

theorem mem_ids_of_getUser (db : DB) (uid : Nat) (u : User) (h : getUser db uid = some u) :
    uid ∈ DB.ids db := by
  unfold getUser at h
  have hm : u ∈ db.users := List.mem_of_find?_eq_some h
  have hid : u.id = uid := by simpa using List.find?_some h
  exact hid ▸ List.mem_map_of_mem User.id hm

theorem not_mem_ids_of_getUser_none (db : DB) (uid : Nat) (h : getUser db uid = none) :
    uid ∉ DB.ids db := by
  unfold getUser at h
  intro hmem
  obtain ⟨u, hu, hid⟩ := List.mem_map.1 hmem
  have := List.find?_eq_none.1 h u hu
  simp [hid] at this

theorem txnSum_eq_zero_of_not_mem (db : DB) (i : Nat)
    (hown : ∀ t ∈ db.transactions, t.user_id ∈ DB.ids db)
    (hi : i ∉ DB.ids db) : txnSum db i = 0 := by
  unfold txnSum
  have hnil : db.transactions.filter (fun t => t.user_id == i) = [] := by
    refine List.filter_eq_nil_iff.mpr (fun t ht => ?_)
    simp only [beq_iff_eq]
    intro hti
    exact hi (hti ▸ hown t ht)
  rw [hnil]; rfl

/-! ## The ledger invariant -/

/-- Every transaction belongs to a user present in the `users` table. -/
def txnsOwned (db : DB) : Prop := ∀ t ∈ db.transactions, t.user_id ∈ DB.ids db

/-- The ledger/balance consistency property of the spec: for every user,
the signed sum of that user's transactions equals the stored balance. -/
def ledgerConsistent (db : DB) : Prop := ∀ u ∈ db.users, txnSum db u.id = u.tokens

/-- The inductive invariant behind ledger consistency: distinct user ids,
transactions owned by existing users, and ledger consistency itself. -/
def LedgerInv (db : DB) : Prop := (DB.ids db).Nodup ∧ txnsOwned db ∧ ledgerConsistent db

/-- Core preservation lemma: an `UPDATE users ... WHERE id = uid` that
shifts the balance of the targeted rows by `a`, immediately followed by a
transaction INSERT of amount `a` for `uid`, preserves the invariant. -/
theorem ledgerInv_mutate (db : DB) (uid : Nat) (a : Int) (f : User → User)
    (ty d : String) (c : Option Nat)
    (hid : ∀ u, (f u).id = u.id)
    (htok : ∀ u ∈ db.users, u.id = uid → (f u).tokens = u.tokens + a)
    (hmem : uid ∈ DB.ids db)
    (h : LedgerInv db) :
    LedgerInv (addTxn (updateUser db uid f) ⟨uid, a, ty, d, c⟩) := by
  obtain ⟨hnd, hown, hcons⟩ := h
  have hids : DB.ids (addTxn (updateUser db uid f) ⟨uid, a, ty, d, c⟩) = DB.ids db := by
    rw [ids_addTxn, ids_updateUser db uid f hid]
  refine ⟨by rw [hids]; exact hnd, ?_, ?_⟩
  · intro t ht
    rw [hids]
    rw [txns_addTxn, txns_updateUser] at ht
    rcases List.mem_append.1 ht with h1 | h1
    · exact hown t h1
    · simp only [List.mem_singleton] at h1
      subst h1
      exact hmem
  · intro u' hu'
    rw [users_addTxn, users_updateUser] at hu'
    obtain ⟨u, hu, rfl⟩ := List.mem_map.1 hu'
    by_cases hb : u.id = uid
    · have hbeq : (u.id == uid) = true := beq_iff_eq.mpr hb
      simp only [hbeq, if_true]
      rw [txnSum_addTxn, txnSum_updateUser, hid u, hb, if_pos rfl, htok u hu hb,
        ← hb, hcons u hu]
    · have hbeq : (u.id == uid) = false := beq_eq_false_iff_ne.mpr hb
      simp only [hbeq, Bool.false_eq_true, if_false]
      rw [txnSum_addTxn, txnSum_updateUser, if_neg (fun hh => hb hh.symm), add_zero]
      exact hcons u hu

/-! ## Invariant preservation: `handle_unlock` -/

theorem ids_incViews (db : DB) (cid : Nat) : DB.ids (incViews db cid) = DB.ids db := rfl

theorem incViews_updateUser_comm (db : DB) (uid cid : Nat) (f : User → User) :
    incViews (updateUser db uid f) cid = updateUser (incViews db cid) uid f := rfl

theorem ledgerInv_incViews (db : DB) (cid : Nat) (h : LedgerInv db) :
    LedgerInv (incViews db cid) := h

theorem ids_unlockDebit (db : DB) (uid cid : Nat) (c : Content) :
    DB.ids (unlockDebit db uid cid c) = DB.ids db := by
  unfold unlockDebit
  rw [ids_addTxn, incViews_updateUser_comm, ids_updateUser]
  · rfl
  · intro u; rfl

theorem ids_unlockLoyalty (db : DB) (uid : Nat) (n : Int) :
    DB.ids (unlockLoyalty db uid n) = DB.ids db := by
  unfold unlockLoyalty
  by_cases h : n % LOYALTY_THRESHOLD == 0
  · rw [if_pos h, ids_addTxn, ids_updateUser]
    intro u; rfl
  · rw [if_neg h]

theorem ids_unlockRefund (db : DB) (uid cid : Nat) :
    DB.ids (unlockRefund db uid cid) = DB.ids db := by
  unfold unlockRefund
  rw [ids_addTxn, ids_updateUser]
  intro u; rfl

theorem ledgerInv_unlockDebit (db : DB) (uid cid : Nat) (c : Content)
    (hmem : uid ∈ DB.ids db) (h : LedgerInv db) :
    LedgerInv (unlockDebit db uid cid c) := by
  unfold unlockDebit
  rw [incViews_updateUser_comm]
  exact ledgerInv_mutate (incViews db cid) uid (-1) _ _ _ _ (fun u => rfl)
    (fun u _ _ => by simp [Int.sub_eq_add_neg]) hmem (ledgerInv_incViews db cid h)

theorem ledgerInv_unlockLoyalty (db : DB) (uid : Nat) (n : Int)
    (hmem : uid ∈ DB.ids db) (h : LedgerInv db) :
    LedgerInv (unlockLoyalty db uid n) := by
  unfold unlockLoyalty
  by_cases hn : n % LOYALTY_THRESHOLD == 0
  · rw [if_pos hn]
    exact ledgerInv_mutate db uid LOYALTY_BONUS _ _ _ _ (fun u => rfl)
      (fun u _ _ => rfl) hmem h
  · rw [if_neg hn]; exact h

theorem ledgerInv_unlockRefund (db : DB) (uid cid : Nat)
    (hmem : uid ∈ DB.ids db) (h : LedgerInv db) :
    LedgerInv (unlockRefund db uid cid) := by
  unfold unlockRefund
  exact ledgerInv_mutate db uid 1 _ _ _ _ (fun u => rfl) (fun u _ _ => rfl) hmem h

/-! Unfolding equations for `handle_unlock`. -/

theorem handle_unlock_eq_noUser (db : DB) (uid cid : Nat) (ok : Bool)
    (hg : getUser db uid = none) :
    handle_unlock db uid cid ok = (db, .insufficient) := by
  unfold handle_unlock; rw [hg]

theorem handle_unlock_eq_low (db : DB) (uid cid : Nat) (ok : Bool) (u : User)
    (hg : getUser db uid = some u) (htk : u.tokens ≤ 0) :
    handle_unlock db uid cid ok = (db, .insufficient) := by
  unfold handle_unlock; rw [hg]; dsimp only; rw [if_pos htk]

theorem handle_unlock_eq_noContent (db : DB) (uid cid : Nat) (ok : Bool) (u : User)
    (hg : getUser db uid = some u) (htk : ¬ u.tokens ≤ 0)
    (hc : findContent db cid = none) :
    handle_unlock db uid cid ok = (db, .contentMissing) := by
  unfold handle_unlock; rw [hg]; dsimp only; rw [if_neg htk, hc]

theorem handle_unlock_eq_delivered (db : DB) (uid cid : Nat) (u : User) (c : Content)
    (hg : getUser db uid = some u) (htk : ¬ u.tokens ≤ 0)
    (hc : findContent db cid = some c) :
    handle_unlock db uid cid true =
      (unlockLoyalty (unlockDebit db uid cid c) uid (u.redemptions + 1),
       .delivered
         (((getUser (unlockLoyalty (unlockDebit db uid cid c) uid (u.redemptions + 1)) uid).map
            User.tokens).getD 0)
         (u.redemptions + 1)) := by
  unfold handle_unlock; rw [hg]; dsimp only; rw [if_neg htk, hc]; rfl

theorem handle_unlock_eq_refunded (db : DB) (uid cid : Nat) (u : User) (c : Content)
    (hg : getUser db uid = some u) (htk : ¬ u.tokens ≤ 0)
    (hc : findContent db cid = some c) :
    handle_unlock db uid cid false =
      (unlockRefund (unlockLoyalty (unlockDebit db uid cid c) uid (u.redemptions + 1)) uid cid,
       .refunded) := by
  unfold handle_unlock; rw [hg]; dsimp only; rw [if_neg htk, hc]; rfl

theorem ledgerInv_handle_unlock (db : DB) (uid cid : Nat) (ok : Bool)
    (h : LedgerInv db) : LedgerInv (handle_unlock db uid cid ok).1 := by
  cases hg : getUser db uid with
  | none => rw [handle_unlock_eq_noUser db uid cid ok hg]; exact h
  | some u =>
    by_cases htk : u.tokens ≤ 0
    · rw [handle_unlock_eq_low db uid cid ok u hg htk]; exact h
    · cases hc : findContent db cid with
      | none => rw [handle_unlock_eq_noContent db uid cid ok u hg htk hc]; exact h
      | some c =>
        have hmem : uid ∈ DB.ids db := mem_ids_of_getUser db uid u hg
        have h4 : LedgerInv (unlockLoyalty (unlockDebit db uid cid c) uid (u.redemptions + 1)) :=
          ledgerInv_unlockLoyalty _ uid _ (by rw [ids_unlockDebit]; exact hmem)
            (ledgerInv_unlockDebit db uid cid c hmem h)
        cases ok with
        | true => rw [handle_unlock_eq_delivered db uid cid u c hg htk hc]; exact h4
        | false =>
          rw [handle_unlock_eq_refunded db uid cid u c hg htk hc]
          exact ledgerInv_unlockRefund _ uid cid
            (by rw [ids_unlockLoyalty, ids_unlockDebit]; exact hmem) h4

/-! ## Invariant preservation: `start_command` -/

theorem resolveReferrer_some (uid : Nat) (refArg : Option Nat) (r : Nat)
    (h : resolveReferrer uid refArg = some r) : refArg = some r ∧ r ≠ uid := by
  unfold resolveReferrer at h
  cases refArg with
  | none => cases h
  | some r0 =>
    dsimp only at h
    by_cases he : r0 == uid
    · rw [if_pos he] at h; cases h
    · rw [if_neg he] at h
      cases h
      exact ⟨rfl, by simpa using he⟩

theorem ids_mutate (db : DB) (uid : Nat) (f : User → User) (t : Txn)
    (hf : ∀ u, (f u).id = u.id) :
    DB.ids (addTxn (updateUser db uid f) t) = DB.ids db := by
  rw [ids_addTxn, ids_updateUser db uid f hf]

theorem mem_ids_mutate (db : DB) (i uid : Nat) (f : User → User) (t : Txn)
    (hf : ∀ u, (f u).id = u.id) (h : i ∈ DB.ids db) :
    i ∈ DB.ids (addTxn (updateUser db uid f) t) := by
  rw [ids_mutate db uid f t hf]; exact h

theorem nodup_ids_mutate (db : DB) (uid : Nat) (f : User → User) (t : Txn)
    (h : (DB.ids db).Nodup) (hf : ∀ u, (f u).id = u.id) :
    (DB.ids (addTxn (updateUser db uid f) t)).Nodup := by
  rw [ids_mutate db uid f t hf]; exact h

theorem start_command_eq_existing (db : DB) (uid : Nat) (un : String)
    (refArg : Option Nat) (u : User) (hg : getUser db uid = some u) :
    start_command db uid un refArg = db := by
  unfold start_command; rw [hg]

theorem start_command_eq_new_noRef (db : DB) (uid : Nat) (un : String)
    (refArg : Option Nat) (hg : getUser db uid = none)
    (hrb : resolveReferrer uid refArg = none) :
    start_command db uid un refArg =
      addTxn
        (updateUser {db with users := db.users ++ [⟨uid, 0, 0, true, none⟩]} uid
          (fun u => {u with tokens := u.tokens + 1}))
        ⟨uid, 1, "welcome_bonus", "Welcome to the platform", none⟩ := by
  unfold start_command; rw [hg]; dsimp only; rw [hrb]

theorem start_command_eq_new_ref (db : DB) (uid : Nat) (un : String)
    (refArg : Option Nat) (r : Nat) (hg : getUser db uid = none)
    (hrb : resolveReferrer uid refArg = some r) :
    start_command db uid un refArg =
      (let db1 : DB := {db with users := db.users ++ [⟨uid, 0, 0, true, some r⟩]}
       let db2 : DB :=
         addTxn
           (updateUser {db1 with referrals := db1.referrals ++ [⟨r, uid, REFERRAL_BONUS⟩]} r
             (fun u => {u with tokens := u.tokens + REFERRAL_BONUS}))
           ⟨r, REFERRAL_BONUS, "referral_bonus", "Referred user @" ++ un, none⟩
       addTxn
         (updateUser db2 uid (fun u => {u with tokens := u.tokens + 1}))
         ⟨uid, 1, "welcome_bonus", "Welcome to the platform", none⟩) := by
  unfold start_command; rw [hg]; dsimp only; rw [hrb]

theorem ledgerInv_insert_user (db : DB) (uid : Nat) (rb : Option Nat)
    (hnew : uid ∉ DB.ids db) (h : LedgerInv db) :
    LedgerInv {db with users := db.users ++ [⟨uid, 0, 0, true, rb⟩]} := by
  obtain ⟨hnd, hown, hcons⟩ := h
  have hids : DB.ids {db with users := db.users ++ [⟨uid, 0, 0, true, rb⟩]}
      = DB.ids db ++ [uid] := by
    simp [DB.ids]
  refine ⟨?_, ?_, ?_⟩
  · rw [hids]
    refine List.nodup_append.mpr ⟨hnd, List.nodup_singleton _, ?_⟩
    intro a ha hb
    simp only [List.mem_singleton] at hb
    subst hb
    exact hnew ha
  · intro t ht
    rw [hids]
    exact List.mem_append_left _ (hown t ht)
  · intro u' hu'
    rcases List.mem_append.1 hu' with h1 | h1
    · exact hcons u' h1
    · simp only [List.mem_singleton] at h1
      subst h1
      exact txnSum_eq_zero_of_not_mem db uid hown hnew

theorem ledgerInv_referral_append (db : DB) (rec : Referral) (h : LedgerInv db) :
    LedgerInv {db with referrals := db.referrals ++ [rec]} := h

theorem ledgerInv_start_command (db : DB) (uid : Nat) (un : String) (refArg : Option Nat)
    (h : LedgerInv db)
    (href : ∀ r, refArg = some r → r ≠ uid → r ∈ DB.ids db) :
    LedgerInv (start_command db uid un refArg) := by
  cases hg : getUser db uid with
  | some u => rw [start_command_eq_existing db uid un refArg u hg]; exact h
  | none =>
    have hnew : uid ∉ DB.ids db := not_mem_ids_of_getUser_none db uid hg
    cases hrb : resolveReferrer uid refArg with
    | none =>
      rw [start_command_eq_new_noRef db uid un refArg hg hrb]
      have h1 := ledgerInv_insert_user db uid none hnew h
      refine ledgerInv_mutate _ uid 1 _ _ _ _ (fun u => rfl) (fun u _ _ => rfl) ?_ h1
      simp [DB.ids]
    | some r =>
      obtain ⟨hra, hrne⟩ := resolveReferrer_some uid refArg r hrb
      have hrmem : r ∈ DB.ids db := href r hra hrne
      rw [start_command_eq_new_ref db uid un refArg r hg hrb]
      have h1 := ledgerInv_insert_user db uid (some r) hnew h
      have hids1 : DB.ids {db with users := db.users ++ [⟨uid, 0, 0, true, some r⟩]}
          = DB.ids db ++ [uid] := by simp [DB.ids]
      have h2 := ledgerInv_referral_append
        {db with users := db.users ++ [⟨uid, 0, 0, true, some r⟩]} ⟨r, uid, REFERRAL_BONUS⟩ h1
      have h3 := ledgerInv_mutate _ r REFERRAL_BONUS
        (fun u => {u with tokens := u.tokens + REFERRAL_BONUS})
        "referral_bonus" ("Referred user @" ++ un) none (fun u => rfl) (fun u _ _ => rfl)
        (by
          show r ∈ DB.ids {db with users := db.users ++ [⟨uid, 0, 0, true, some r⟩]}
          rw [hids1]
          exact List.mem_append_left _ hrmem) h2
      refine ledgerInv_mutate _ uid 1 _ _ _ _ (fun u => rfl) (fun u _ _ => rfl) ?_ h3
      refine mem_ids_mutate _ uid r _ _ (fun u => rfl) ?_
      show uid ∈ DB.ids {db with users := db.users ++ [⟨uid, 0, 0, true, some r⟩]}
      rw [hids1]
      exact List.mem_append_right _ (List.mem_singleton.mpr rfl)

/-! ## Invariant preservation: `bulk_token_operation` and uploads -/

theorem ledgerInv_upload (db : DB) (cid : Nat) (cap : String) (h : LedgerInv db) :
    LedgerInv (upload_content db cid cap) := h

theorem applyBulkOne_add (db : DB) (a : Int) (uid : Nat) :
    applyBulkOne db "add" a uid =
      addTxn (updateUser db uid (fun u => {u with tokens := u.tokens + a}))
        ⟨uid, a, "bulk_add", "Bulk token addition by admin", none⟩ := rfl

theorem applyBulkOne_sub (db : DB) (a : Int) (uid : Nat) :
    applyBulkOne db "subtract" a uid =
      addTxn (updateUser db uid (fun u => {u with tokens := max 0 (u.tokens - a)}))
        ⟨uid, -a, "bulk_subtract", "Bulk token subtraction by admin", none⟩ := rfl

theorem applyBulkOne_set (db : DB) (a : Int) (uid : Nat) :
    applyBulkOne db "set" a uid =
      addTxn (updateUser db uid (fun u => {u with tokens := a}))
        ⟨uid, a, "bulk_set", "Bulk token set to " ++ toString a ++ " by admin", none⟩ := rfl

theorem applyBulkOne_unknown (db : DB) (op : String) (a : Int) (uid : Nat)
    (h1 : op ≠ "add") (h2 : op ≠ "subtract") (h3 : op ≠ "set") :
    applyBulkOne db op a uid = db := by
  unfold applyBulkOne
  rw [if_neg (fun hh => h1 (beq_iff_eq.mp hh)), if_neg (fun hh => h2 (beq_iff_eq.mp hh)),
    if_neg (fun hh => h3 (beq_iff_eq.mp hh))]

theorem ids_applyBulkOne (db : DB) (op : String) (a : Int) (uid : Nat) :
    DB.ids (applyBulkOne db op a uid) = DB.ids db := by
  unfold applyBulkOne
  by_cases h1 : op == "add"
  · rw [if_pos h1]
    refine ids_mutate _ _ _ _ ?_
    intro u; rfl
  · rw [if_neg h1]
    by_cases h2 : op == "subtract"
    · rw [if_pos h2]
      refine ids_mutate _ _ _ _ ?_
      intro u; rfl
    · rw [if_neg h2]
      by_cases h3 : op == "set"
      · rw [if_pos h3]
        refine ids_mutate _ _ _ _ ?_
        intro u; rfl
      · rw [if_neg h3]

theorem mem_users_mutate_of_ne (db : DB) (uid : Nat) (f : User → User) (t : Txn)
    (hf : ∀ u, (f u).id = u.id) :
    ∀ u' ∈ (addTxn (updateUser db uid f) t).users, u'.id ≠ uid → u' ∈ db.users := by
  intro u' hu' hne
  rw [users_addTxn, users_updateUser] at hu'
  obtain ⟨u, hu, rfl⟩ := List.mem_map.1 hu'
  by_cases h : u.id = uid
  · have hb : (u.id == uid) = true := beq_iff_eq.mpr h
    simp only [hb, if_true] at hne ⊢
    exact absurd (by rw [hf u, h]) hne
  · have hb : (u.id == uid) = false := beq_eq_false_iff_ne.mpr h
    simp only [hb, Bool.false_eq_true, if_false] at hne ⊢
    exact hu

theorem ledgerInv_applyBulkOne_add (db : DB) (a : Int) (uid : Nat)
    (hmem : uid ∈ DB.ids db) (h : LedgerInv db) :
    LedgerInv (applyBulkOne db "add" a uid) := by
  rw [applyBulkOne_add]
  exact ledgerInv_mutate db uid a _ _ _ _ (fun u => rfl) (fun u _ _ => rfl) hmem h

theorem ledgerInv_applyBulkOne_sub (db : DB) (a : Int) (uid : Nat)
    (hmem : uid ∈ DB.ids db)
    (hge : ∀ u ∈ db.users, u.id = uid → a ≤ u.tokens) (h : LedgerInv db) :
    LedgerInv (applyBulkOne db "subtract" a uid) := by
  rw [applyBulkOne_sub]
  refine ledgerInv_mutate db uid (-a) _ _ _ _ (fun u => rfl) ?_ hmem h
  intro u hu hid
  have hle := hge u hu hid
  show max 0 (u.tokens - a) = u.tokens + -a
  rw [max_eq_right (by omega), Int.sub_eq_add_neg]

theorem ledgerInv_foldl_add (a : Int) :
    ∀ (ts : List Nat) (db : DB), (∀ uid ∈ ts, uid ∈ DB.ids db) → LedgerInv db →
      LedgerInv (ts.foldl (fun d uid => applyBulkOne d "add" a uid) db)
  | [], _, _, h => h
  | uid :: ts, db, hts, h => by
    rw [List.foldl_cons]
    refine ledgerInv_foldl_add a ts _ ?_ ?_
    · intro x hx
      rw [ids_applyBulkOne]
      exact hts x (List.mem_cons_of_mem _ hx)
    · exact ledgerInv_applyBulkOne_add db a uid (hts uid (List.mem_cons_self _ _)) h

theorem ledgerInv_foldl_sub (a : Int) :
    ∀ (ts : List Nat) (db : DB),
      (∀ uid ∈ ts, uid ∈ DB.ids db) → ts.Nodup →
      (∀ uid ∈ ts, ∀ u ∈ db.users, u.id = uid → a ≤ u.tokens) →
      LedgerInv db →
      LedgerInv (ts.foldl (fun d uid => applyBulkOne d "subtract" a uid) db)
  | [], _, _, _, _, h => h
  | uid :: ts, db, hts, hnd, hge, h => by
    rw [List.foldl_cons]
    obtain ⟨hnotin, hnd'⟩ := List.nodup_cons.mp hnd
    refine ledgerInv_foldl_sub a ts _ ?_ hnd' ?_ ?_
    · intro x hx
      rw [ids_applyBulkOne]
      exact hts x (List.mem_cons_of_mem _ hx)
    · intro x hx u hu hid
      have hxne : x ≠ uid := fun he => hnotin (he ▸ hx)
      have humem : u ∈ db.users := by
        have hune : u.id ≠ uid := by rw [hid]; exact hxne
        rw [applyBulkOne_sub] at hu
        exact mem_users_mutate_of_ne db uid
          (fun v => {v with tokens := max 0 (v.tokens - a)}) _ (fun v => rfl) u hu hune
      exact hge x (List.mem_cons_of_mem _ hx) u humem hid
    · exact ledgerInv_applyBulkOne_sub db a uid (hts uid (List.mem_cons_self _ _))
        (fun u hu hid => hge uid (List.mem_cons_self _ _) u hu hid) h

theorem targets_subset (db : DB) (f : UserFilter) :
    ∀ x ∈ (db.users.filter (matchesFilter f)).map User.id, x ∈ DB.ids db := by
  intro x hx
  obtain ⟨u, hu, rfl⟩ := List.mem_map.1 hx
  exact List.mem_map_of_mem User.id (List.mem_of_mem_filter hu)

theorem targets_nodup (db : DB) (f : UserFilter) (h : (DB.ids db).Nodup) :
    ((db.users.filter (matchesFilter f)).map User.id).Nodup := by
  have hs : (db.users.filter (matchesFilter f)).Sublist db.users := List.filter_sublist _
  exact (hs.map User.id).nodup h

theorem ledgerInv_bulk_add (db : DB) (a : Int) (f : UserFilter) (h : LedgerInv db) :
    LedgerInv (bulk_token_operation db "add" a f).1 :=
  ledgerInv_foldl_add a _ db (targets_subset db f) h

theorem ledgerInv_bulk_sub (db : DB) (a : Int) (f : UserFilter)
    (hge : ∀ u ∈ db.users, matchesFilter f u = true → a ≤ u.tokens) (h : LedgerInv db) :
    LedgerInv (bulk_token_operation db "subtract" a f).1 := by
  refine ledgerInv_foldl_sub a _ db (targets_subset db f) (targets_nodup db f h.1) ?_ h
  intro x hx u hu hid
  obtain ⟨u0, hu0, rfl⟩ := List.mem_map.1 hx
  have hu0m : u0 ∈ db.users := List.mem_of_mem_filter hu0
  have hmatch : matchesFilter f u0 = true := List.of_mem_filter hu0
  have heq : u = u0 := List.inj_on_of_nodup_map h.1 hu hu0m (by rw [hid])
  subst heq
  exact hge u hu0m hmatch

/-! ## Reachable states and the ledger-consistency claim -/

/-- Operation sequences under which ledger consistency is provable:
account creation whose referral bonus (if any) goes to an existing
account, content uploads, redemptions with any delivery outcome, bulk
adds of any amount, and bulk subtracts that never clamp.  (Bulk `set`,
clamped bulk subtract, and referral bonuses credited to absent accounts
all break consistency; see the counterexample.) -/
inductive ReachableL : DB → Prop
  | init : ReachableL DB.empty
  | start (db : DB) (uid : Nat) (un : String) (refArg : Option Nat) :
      ReachableL db → (∀ r, refArg = some r → r ≠ uid → r ∈ DB.ids db) →
      ReachableL (start_command db uid un refArg)
  | upload (db : DB) (cid : Nat) (cap : String) :
      ReachableL db → ReachableL (upload_content db cid cap)
  | unlock (db : DB) (uid cid : Nat) (ok : Bool) :
      ReachableL db → ReachableL (handle_unlock db uid cid ok).1
  | bulkAdd (db : DB) (a : Int) (f : UserFilter) :
      ReachableL db → ReachableL (bulk_token_operation db "add" a f).1
  | bulkSub (db : DB) (a : Int) (f : UserFilter) :
      ReachableL db → (∀ u ∈ db.users, matchesFilter f u = true → a ≤ u.tokens) →
      ReachableL (bulk_token_operation db "subtract" a f).1

theorem ledgerInv_of_reachable (db : DB) (h : ReachableL db) : LedgerInv db := by
  induction h with
  | init =>
    exact ⟨List.nodup_nil, fun t ht => absurd ht (List.not_mem_nil t),
      fun u hu => absurd hu (List.not_mem_nil u)⟩
  | start db uid un refArg _ href ih => exact ledgerInv_start_command db uid un refArg ih href
  | upload db cid cap _ ih => exact ledgerInv_upload db cid cap ih
  | unlock db uid cid ok _ ih => exact ledgerInv_handle_unlock db uid cid ok ih
  | bulkAdd db a f _ ih => exact ledgerInv_bulk_add db a f ih
  | bulkSub db a f _ hge ih => exact ledgerInv_bulk_sub db a f hge ih

/-- Welcome bonus, then bulk add of 29 tokens: user 1 holds 30 tokens. -/
def dbC1a : DB := start_command DB.empty 1 "a" none
def dbC1b : DB := (bulk_token_operation dbC1a "add" 29 {}).1
/-- Bulk subtract of 100 from a 30-token balance: clamps to 0 but logs -100. -/
def dbC1c : DB := (bulk_token_operation dbC1b "subtract" 100 {}).1

/-- C1 counterexample: after welcome bonus (+1), bulk add (+29) and bulk
subtract of 100 (clamped), user 1 holds 0 tokens while the signed sum of
the recorded transactions is 1 + 29 - 100 = -70, so the spec's
ledger/balance consistency invariant fails on the code. -/
theorem ledger_consistency_violated_by_clamped_bulk_subtract :
    (getUser dbC1c 1).map User.tokens = some 0 ∧ txnSum dbC1c 1 = -70 := by decide

/-- C1 (amended): ledger/balance consistency — the signed sum of a user's
transactions equals the stored balance — holds after every sequence of
account creations (welcome and referral bonus, provided the referral
bonus goes to an existing account), redemptions (including loyalty bonus
and delivery-failure refund), bulk adds, and bulk subtracts that do not
clamp; bulk `set` and clamped bulk subtract log amounts that differ from
the applied delta and are excluded. -/
theorem ledger_consistency_of_reachable (db : DB) (h : ReachableL db) :
    ledgerConsistent db :=
  (ledgerInv_of_reachable db h).2.2

/-- Concrete run for the witness: two accounts, a referral bonus to an
existing referrer, and a non-clamping bulk subtract. -/
def dbW1 : DB :=
  (bulk_token_operation
    (start_command (start_command DB.empty 1 "a" none) 2 "b" (some 1)) "subtract" 1 {}).1

/-- Witness for C1 at a concrete reachable state. -/
theorem ledger_consistency_of_reachable_witness : ledgerConsistent dbW1 :=
  ledger_consistency_of_reachable dbW1
    (ReachableL.bulkSub _ 1 {}
      (ReachableL.start _ 2 "b" (some 1)
        (ReachableL.start _ 1 "a" none ReachableL.init (by intro r hr; cases hr))
        (by intro r hr hne; cases hr; decide))
      (by decide))

/-! ## Non-negativity of balances -/

/-- No user's stored balance is negative. -/
def allTokensNonneg (db : DB) : Prop := ∀ u ∈ db.users, 0 ≤ u.tokens

/-- The invariant behind non-negativity: distinct ids (so the redeem
path's balance check covers the row it debits) plus non-negativity. -/
def NonnegInv (db : DB) : Prop := (DB.ids db).Nodup ∧ allTokensNonneg db

theorem eq_of_getUser_of_mem (db : DB) (uid : Nat) (u v : User)
    (hnd : (DB.ids db).Nodup) (hu : getUser db uid = some u)
    (hv : v ∈ db.users) (hvid : v.id = uid) : v = u := by
  unfold getUser at hu
  have hum : u ∈ db.users := List.mem_of_find?_eq_some hu
  have huid : u.id = uid := by simpa using List.find?_some hu
  exact List.inj_on_of_nodup_map hnd hv hum (by rw [hvid, huid])

theorem nonneg_mutate (db : DB) (uid : Nat) (f : User → User) (t : Txn)
    (hf : ∀ u ∈ db.users, u.id = uid → 0 ≤ u.tokens → 0 ≤ (f u).tokens)
    (h : allTokensNonneg db) :
    allTokensNonneg (addTxn (updateUser db uid f) t) := by
  intro u' hu'
  rw [users_addTxn, users_updateUser] at hu'
  obtain ⟨u, hu, rfl⟩ := List.mem_map.1 hu'
  by_cases hb : u.id = uid
  · have hbq : (u.id == uid) = true := beq_iff_eq.mpr hb
    simp only [hbq, if_true]
    exact hf u hu hb (h u hu)
  · have hbq : (u.id == uid) = false := beq_eq_false_iff_ne.mpr hb
    simp only [hbq, Bool.false_eq_true, if_false]
    exact h u hu

theorem nonneg_insert (db : DB) (uid : Nat) (rb : Option Nat) (h : allTokensNonneg db) :
    allTokensNonneg {db with users := db.users ++ [⟨uid, 0, 0, true, rb⟩]} := by
  intro u hu
  rcases List.mem_append.1 hu with h1 | h1
  · exact h u h1
  · simp only [List.mem_singleton] at h1
    subst h1
    exact le_refl 0

theorem ids_insert (db : DB) (uid : Nat) (rb : Option Nat) :
    DB.ids {db with users := db.users ++ [⟨uid, 0, 0, true, rb⟩]} = DB.ids db ++ [uid] := by
  simp [DB.ids]

theorem nodup_ids_insert (db : DB) (uid : Nat) (rb : Option Nat)
    (hnew : uid ∉ DB.ids db) (h : (DB.ids db).Nodup) :
    (DB.ids {db with users := db.users ++ [⟨uid, 0, 0, true, rb⟩]}).Nodup := by
  rw [ids_insert]
  refine List.nodup_append.mpr ⟨h, List.nodup_singleton _, ?_⟩
  intro a ha hb
  simp only [List.mem_singleton] at hb
  subst hb
  exact hnew ha

theorem nonnegInv_start (db : DB) (uid : Nat) (un : String) (refArg : Option Nat)
    (h : NonnegInv db) : NonnegInv (start_command db uid un refArg) := by
  obtain ⟨hnd, hnn⟩ := h
  cases hg : getUser db uid with
  | some u => rw [start_command_eq_existing db uid un refArg u hg]; exact ⟨hnd, hnn⟩
  | none =>
    have hnew := not_mem_ids_of_getUser_none db uid hg
    cases hrb : resolveReferrer uid refArg with
    | none =>
      rw [start_command_eq_new_noRef db uid un refArg hg hrb]
      constructor
      · refine nodup_ids_mutate _ _ _ _ ?_ ?_
        · exact nodup_ids_insert db uid none hnew hnd
        · intro u; rfl
      · refine nonneg_mutate _ uid _ _ ?_ (nonneg_insert db uid none hnn)
        intro u _ _ hu
        show 0 ≤ u.tokens + 1
        omega
    | some r =>
      rw [start_command_eq_new_ref db uid un refArg r hg hrb]
      constructor
      · refine nodup_ids_mutate _ _ _ _ ?_ ?_
        · refine nodup_ids_mutate _ _ _ _ ?_ ?_
          · exact nodup_ids_insert db uid (some r) hnew hnd
          · intro u; rfl
        · intro u; rfl
      · refine nonneg_mutate _ uid _ _ ?_ ?_
        · intro u _ _ hu
          show 0 ≤ u.tokens + 1
          omega
        · refine nonneg_mutate _ r _ _ ?_ ?_
          · intro u _ _ hu
            show 0 ≤ u.tokens + REFERRAL_BONUS
            have hrb2 : REFERRAL_BONUS = 2 := rfl
            omega
          · exact nonneg_insert db uid (some r) hnn

theorem ids_foldl_bulk (op : String) (a : Int) :
    ∀ (ts : List Nat) (db : DB),
      DB.ids (ts.foldl (fun d uid => applyBulkOne d op a uid) db) = DB.ids db
  | [], _ => rfl
  | uid :: ts, db => by
    rw [List.foldl_cons, ids_foldl_bulk op a ts, ids_applyBulkOne]

theorem ids_bulk (db : DB) (op : String) (a : Int) (f : UserFilter) :
    DB.ids (bulk_token_operation db op a f).1 = DB.ids db :=
  ids_foldl_bulk op a _ db

theorem nonneg_applyBulkOne (db : DB) (op : String) (a : Int) (uid : Nat)
    (ha : op = "add" ∨ op = "set" → 0 ≤ a) (h : allTokensNonneg db) :
    allTokensNonneg (applyBulkOne db op a uid) := by
  by_cases h1 : op = "add"
  · subst h1
    rw [applyBulkOne_add]
    refine nonneg_mutate _ uid _ _ ?_ h
    intro u _ _ hu
    have := ha (Or.inl rfl)
    show 0 ≤ u.tokens + a
    omega
  · by_cases h2 : op = "subtract"
    · subst h2
      rw [applyBulkOne_sub]
      refine nonneg_mutate _ uid _ _ ?_ h
      intro u _ _ _
      exact le_max_left 0 _
    · by_cases h3 : op = "set"
      · subst h3
        rw [applyBulkOne_set]
        refine nonneg_mutate _ uid _ _ ?_ h
        intro u _ _ _
        exact ha (Or.inr rfl)
      · rw [applyBulkOne_unknown db op a uid h1 h2 h3]
        exact h

theorem nonneg_foldl_bulk (op : String) (a : Int) (ha : op = "add" ∨ op = "set" → 0 ≤ a) :
    ∀ (ts : List Nat) (db : DB), allTokensNonneg db →
      allTokensNonneg (ts.foldl (fun d uid => applyBulkOne d op a uid) db)
  | [], _, h => h
  | uid :: ts, db, h => by
    rw [List.foldl_cons]
    exact nonneg_foldl_bulk op a ha ts _ (nonneg_applyBulkOne db op a uid ha h)

theorem nonnegInv_bulk (db : DB) (op : String) (a : Int) (f : UserFilter)
    (ha : op = "add" ∨ op = "set" → 0 ≤ a) (h : NonnegInv db) :
    NonnegInv (bulk_token_operation db op a f).1 := by
  constructor
  · rw [ids_bulk]; exact h.1
  · exact nonneg_foldl_bulk op a ha _ db h.2

theorem nonnegInv_upload (db : DB) (cid : Nat) (cap : String) (h : NonnegInv db) :
    NonnegInv (upload_content db cid cap) := h

theorem ids_handle_unlock (db : DB) (uid cid : Nat) (ok : Bool) :
    DB.ids (handle_unlock db uid cid ok).1 = DB.ids db := by
  cases hg : getUser db uid with
  | none => rw [handle_unlock_eq_noUser db uid cid ok hg]
  | some u =>
    by_cases htk : u.tokens ≤ 0
    · rw [handle_unlock_eq_low db uid cid ok u hg htk]
    · cases hc : findContent db cid with
      | none => rw [handle_unlock_eq_noContent db uid cid ok u hg htk hc]
      | some c =>
        cases ok with
        | true =>
          rw [handle_unlock_eq_delivered db uid cid u c hg htk hc]
          show DB.ids (unlockLoyalty (unlockDebit db uid cid c) uid (u.redemptions + 1)) = DB.ids db
          rw [ids_unlockLoyalty, ids_unlockDebit]
        | false =>
          rw [handle_unlock_eq_refunded db uid cid u c hg htk hc]
          show DB.ids (unlockRefund
            (unlockLoyalty (unlockDebit db uid cid c) uid (u.redemptions + 1)) uid cid) = DB.ids db
          rw [ids_unlockRefund, ids_unlockLoyalty, ids_unlockDebit]

theorem nonneg_unlockDebit (db : DB) (uid cid : Nat) (c : Content) (u : User)
    (hnd : (DB.ids db).Nodup) (hg : getUser db uid = some u) (htk : ¬ u.tokens ≤ 0)
    (h : allTokensNonneg db) : allTokensNonneg (unlockDebit db uid cid c) := by
  unfold unlockDebit
  rw [incViews_updateUser_comm]
  refine nonneg_mutate _ uid _ _ ?_ h
  intro v hv hvid _
  have hvu : v = u := eq_of_getUser_of_mem db uid u v hnd hg hv hvid
  subst hvu
  show 0 ≤ v.tokens - 1
  omega

theorem nonneg_unlockLoyalty (db : DB) (uid : Nat) (n : Int)
    (h : allTokensNonneg db) : allTokensNonneg (unlockLoyalty db uid n) := by
  unfold unlockLoyalty
  by_cases hn : n % LOYALTY_THRESHOLD == 0
  · rw [if_pos hn]
    refine nonneg_mutate _ uid _ _ ?_ h
    intro u _ _ hu
    show 0 ≤ u.tokens + LOYALTY_BONUS
    have hlb : LOYALTY_BONUS = 5 := rfl
    omega
  · rw [if_neg hn]; exact h

theorem nonneg_unlockRefund (db : DB) (uid cid : Nat)
    (h : allTokensNonneg db) : allTokensNonneg (unlockRefund db uid cid) := by
  unfold unlockRefund
  refine nonneg_mutate _ uid _ _ ?_ h
  intro u _ _ hu
  show 0 ≤ u.tokens + 1
  omega

theorem nonnegInv_handle_unlock (db : DB) (uid cid : Nat) (ok : Bool)
    (h : NonnegInv db) : NonnegInv (handle_unlock db uid cid ok).1 := by
  obtain ⟨hnd, hnn⟩ := h
  refine ⟨by rw [ids_handle_unlock]; exact hnd, ?_⟩
  cases hg : getUser db uid with
  | none => rw [handle_unlock_eq_noUser db uid cid ok hg]; exact hnn
  | some u =>
    by_cases htk : u.tokens ≤ 0
    · rw [handle_unlock_eq_low db uid cid ok u hg htk]; exact hnn
    · cases hc : findContent db cid with
      | none => rw [handle_unlock_eq_noContent db uid cid ok u hg htk hc]; exact hnn
      | some c =>
        have h4 : allTokensNonneg
            (unlockLoyalty (unlockDebit db uid cid c) uid (u.redemptions + 1)) :=
          nonneg_unlockLoyalty _ uid _ (nonneg_unlockDebit db uid cid c u hnd hg htk hnn)
        cases ok with
        | true => rw [handle_unlock_eq_delivered db uid cid u c hg htk hc]; exact h4
        | false =>
          rw [handle_unlock_eq_refunded db uid cid u c hg htk hc]
          exact nonneg_unlockRefund _ uid cid h4

/-- Operation sequences under which non-negativity is provable: any
account creations, uploads and redemptions, bulk subtract of any amount
(the clamp keeps the result non-negative), and bulk add / bulk set with
non-negative amounts. -/
inductive ReachableN : DB → Prop
  | init : ReachableN DB.empty
  | start (db : DB) (uid : Nat) (un : String) (refArg : Option Nat) :
      ReachableN db → ReachableN (start_command db uid un refArg)
  | upload (db : DB) (cid : Nat) (cap : String) :
      ReachableN db → ReachableN (upload_content db cid cap)
  | unlock (db : DB) (uid cid : Nat) (ok : Bool) :
      ReachableN db → ReachableN (handle_unlock db uid cid ok).1
  | bulkAdd (db : DB) (a : Int) (f : UserFilter) :
      ReachableN db → 0 ≤ a → ReachableN (bulk_token_operation db "add" a f).1
  | bulkSub (db : DB) (a : Int) (f : UserFilter) :
      ReachableN db → ReachableN (bulk_token_operation db "subtract" a f).1
  | bulkSet (db : DB) (a : Int) (f : UserFilter) :
      ReachableN db → 0 ≤ a → ReachableN (bulk_token_operation db "set" a f).1

theorem nonnegInv_of_reachable (db : DB) (h : ReachableN db) : NonnegInv db := by
  induction h with
  | init =>
    exact ⟨List.nodup_nil, fun u hu => absurd hu (List.not_mem_nil u)⟩
  | start db uid un refArg _ ih => exact nonnegInv_start db uid un refArg ih
  | upload db cid cap _ ih => exact nonnegInv_upload db cid cap ih
  | unlock db uid cid ok _ ih => exact nonnegInv_handle_unlock db uid cid ok ih
  | bulkAdd db a f _ ha ih =>
    exact nonnegInv_bulk db "add" a f (fun _ => ha) ih
  | bulkSub db a f _ ih =>
    exact nonnegInv_bulk db "subtract" a f (fun hh => absurd hh (by decide)) ih
  | bulkSet db a f _ ha ih =>
    exact nonnegInv_bulk db "set" a f (fun _ => ha) ih

/-- One account built from scratch, then a bulk add with amount -5. -/
def dbC2 : DB := (bulk_token_operation (start_command DB.empty 1 "a" none) "add" (-5) {}).1

/-- C2 counterexample: `bulk_token_operation('add', -5)` drives user 1's
balance from 1 (welcome bonus) to -4: no check rejects the debit, so the
claimed guarantee fails for negative bulk amounts. -/
theorem tokens_negative_after_bulk_add_negative_amount :
    (getUser dbC2 1).map User.tokens = some (-4) := by decide

/-- C2 (amended): balances are never negative for every sequence of
account creations, redemptions and refunds, bulk subtracts of any amount
(the clamp, not a rejection, keeps them non-negative), and bulk adds and
bulk sets with non-negative amounts; the redeem path rejects its debit
when the balance is not positive, but bulk adds/sets with negative
amounts are applied unchecked and can make balances negative. -/
theorem tokens_nonneg_of_reachable (db : DB) (h : ReachableN db) :
    allTokensNonneg db :=
  (nonnegInv_of_reachable db h).2

/-- Concrete run for the witness: creation, bulk set to 5, clamped bulk
subtract of 100. -/
def dbW2 : DB :=
  (bulk_token_operation
    ((bulk_token_operation (start_command DB.empty 1 "a" none) "set" 5 {}).1)
    "subtract" 100 {}).1

/-- Witness for C2 at a concrete reachable state. -/
theorem tokens_nonneg_of_reachable_witness : allTokensNonneg dbW2 :=
  tokens_nonneg_of_reachable dbW2
    (ReachableN.bulkSub _ 100 {}
      (ReachableN.bulkSet _ 5 {}
        (ReachableN.start _ 1 "a" none ReachableN.init) (by decide)))

/-! ## Bulk subtract: clamping vs. logging (C3) -/

/-- C3 counterexample: `bulkApply(subtract, 100, {})` on a 30-token
account yields tokens 0 (clamped, and the operation succeeds), but the
logged transaction has amount -100 — the requested amount — not the
actual delta -30 the claim requires. -/
theorem bulk_subtract_logs_requested_amount :
    (getUser dbC1c 1).map User.tokens = some 0 ∧
    dbC1c.transactions.getLast? =
      some ⟨1, -100, "bulk_subtract", "Bulk token subtraction by admin", none⟩ := by decide

/-- C3 (amended): for a bulk subtract on a single active account the
balance clamps at zero and the operation still succeeds with affected
count 1, but the transaction records the full requested amount
`-amount`, not the actual delta applied when clamping occurs. -/
theorem bulk_subtract_clamps_and_logs_requested (db : DB) (u : User) (a : Int)
    (hus : db.users = [u]) (hact : u.is_active = true) :
    (bulk_token_operation db "subtract" a {}).2 = 1 ∧
    (bulk_token_operation db "subtract" a {}).1.users =
      [{u with tokens := max 0 (u.tokens - a)}] ∧
    (bulk_token_operation db "subtract" a {}).1.transactions =
      db.transactions ++
        [⟨u.id, -a, "bulk_subtract", "Bulk token subtraction by admin", none⟩] := by
  have hm : matchesFilter {} u = true := by simp [matchesFilter, hact]
  have hfil : List.filter (matchesFilter {}) [u] = [u] := by
    simp [List.filter, hm]
  unfold bulk_token_operation
  rw [hus, hfil]
  simp only [List.map_cons, List.map_nil, List.foldl_cons, List.foldl_nil,
    List.length_cons, List.length_nil]
  rw [applyBulkOne_sub]
  refine ⟨by simp, ?_, ?_⟩
  · rw [users_addTxn, users_updateUser, hus]
    simp
  · rw [txns_addTxn, txns_updateUser]

/-- A single active account holding 30 tokens. -/
def dbT3 : DB := ⟨[⟨1, 30, 0, true, none⟩], [], [], []⟩

/-- Witness for C3: the concrete instance of the amended claim,
`bulkApply(subtract, 100, {})` on tokens = 30. -/
theorem bulk_subtract_clamps_and_logs_requested_witness :
    (bulk_token_operation dbT3 "subtract" 100 {}).2 = 1 ∧
    (bulk_token_operation dbT3 "subtract" 100 {}).1.users = [⟨1, 0, 0, true, none⟩] ∧
    (bulk_token_operation dbT3 "subtract" 100 {}).1.transactions =
      [⟨1, -100, "bulk_subtract", "Bulk token subtraction by admin", none⟩] := by
  obtain ⟨h1, h2, h3⟩ :=
    bulk_subtract_clamps_and_logs_requested dbT3 ⟨1, 30, 0, true, none⟩ 100 rfl rfl
  refine ⟨h1, ?_, h3⟩
  rw [h2]
  decide

/-! ## Loyalty bonus behaviour (C4) -/

/-- Number of `loyalty_bonus` transactions on record. -/
def loyaltyCount (db : DB) : Nat :=
  (db.transactions.filter (fun t => t.transaction_type == "loyalty_bonus")).length

theorem loyaltyCount_addTxn (db : DB) (t : Txn) :
    loyaltyCount (addTxn db t) =
      loyaltyCount db + (if t.transaction_type == "loyalty_bonus" then 1 else 0) := by
  unfold loyaltyCount
  rw [txns_addTxn, List.filter_append, List.length_append]
  by_cases h : t.transaction_type == "loyalty_bonus" <;> simp [List.filter, h]

theorem loyaltyCount_updateUser (db : DB) (uid : Nat) (f : User → User) :
    loyaltyCount (updateUser db uid f) = loyaltyCount db := rfl

theorem loyaltyCount_incViews (db : DB) (cid : Nat) :
    loyaltyCount (incViews db cid) = loyaltyCount db := rfl

theorem loyaltyCount_unlockDebit (db : DB) (uid cid : Nat) (c : Content) :
    loyaltyCount (unlockDebit db uid cid c) = loyaltyCount db := by
  unfold unlockDebit
  have hne : ¬ ((("redeem" : String) == "loyalty_bonus") = true) := by decide
  rw [loyaltyCount_addTxn, loyaltyCount_incViews, loyaltyCount_updateUser, if_neg hne, add_zero]

theorem loyaltyCount_unlockLoyalty (db : DB) (uid : Nat) (n : Int) :
    loyaltyCount (unlockLoyalty db uid n) =
      loyaltyCount db + (if n % LOYALTY_THRESHOLD == 0 then 1 else 0) := by
  unfold unlockLoyalty
  by_cases hn : n % LOYALTY_THRESHOLD == 0
  · rw [if_pos hn, if_pos hn, loyaltyCount_addTxn, loyaltyCount_updateUser]
    norm_num
  · rw [if_neg hn, if_neg hn, add_zero]

theorem loyaltyCount_unlockRefund (db : DB) (uid cid : Nat) :
    loyaltyCount (unlockRefund db uid cid) = loyaltyCount db := by
  unfold unlockRefund
  have hne : ¬ ((("refund" : String) == "loyalty_bonus") = true) := by decide
  rw [loyaltyCount_addTxn, loyaltyCount_updateUser, if_neg hne, add_zero]

/-- Chain for the C4/C5 counterexamples: account 7 (welcome bonus), one
upload, bulk add of 10 tokens, then nine successful unlocks — balance 2,
redemption count 9. -/
def dbL0 : DB := upload_content (start_command DB.empty 7 "a" none) 1 "vid"
def dbL1 : DB := (bulk_token_operation dbL0 "add" 10 {}).1
def unlockOnce (db : DB) : DB := (handle_unlock db 7 1 true).1
def unlockIter : Nat → DB → DB
  | 0, db => db
  | n+1, db => unlockIter n (unlockOnce db)
def dbL2 : DB := unlockIter 9 dbL1
/-- Tenth unlock with delivery failure: fires the loyalty bonus for
redemption count 10, then refunds, leaving the count at 9. -/
def dbL3 : DB := (handle_unlock dbL2 7 1 false).1
/-- Eleventh unlock (delivered): reaches redemption count 10 again and
fires the loyalty bonus for the same count a second time. -/
def dbL4 : DB := (handle_unlock dbL3 7 1 true).1

/-- C4 counterexample: after a delivery-failure refund decremented the
redemption count from 10 back to 9, the next redemption reaches 10 again
and the loyalty bonus is paid a second time for the same redemption
count — two `loyalty_bonus` transactions both for count 10. -/
theorem loyalty_bonus_fires_twice_for_same_count :
    (dbL4.transactions.filter (fun t => t.transaction_type == "loyalty_bonus")).map
        Txn.description =
      ["Milestone reward for 10 redemptions", "Milestone reward for 10 redemptions"] := by
  decide

/-- C4 (amended): the loyalty bonus fires exactly when the post-debit
redemption count is a multiple of `LOYALTY_THRESHOLD`; it is keyed by
the current count only, so after a delivery-failure refund decrements
the count, a later redemption reaching the same multiple pays the bonus
again — at most once per redeem call, but not "never twice for the same
redemption count". -/
theorem loyalty_bonus_keyed_by_current_count (db : DB) (uid cid : Nat) (ok : Bool)
    (u : User) (c : Content) (hg : getUser db uid = some u) (htk : ¬ u.tokens ≤ 0)
    (hc : findContent db cid = some c) :
    loyaltyCount (handle_unlock db uid cid ok).1 =
      loyaltyCount db +
        (if (u.redemptions + 1) % LOYALTY_THRESHOLD == 0 then 1 else 0) := by
  cases ok with
  | true =>
    rw [handle_unlock_eq_delivered db uid cid u c hg htk hc]
    show loyaltyCount (unlockLoyalty (unlockDebit db uid cid c) uid (u.redemptions + 1)) = _
    rw [loyaltyCount_unlockLoyalty, loyaltyCount_unlockDebit]
  | false =>
    rw [handle_unlock_eq_refunded db uid cid u c hg htk hc]
    show loyaltyCount (unlockRefund
      (unlockLoyalty (unlockDebit db uid cid c) uid (u.redemptions + 1)) uid cid) = _
    rw [loyaltyCount_unlockRefund, loyaltyCount_unlockLoyalty, loyaltyCount_unlockDebit]

/-- One user at redemption count 9 with 3 tokens, one active content. -/
def dbQ : DB := ⟨[⟨1, 3, 9, true, none⟩], [⟨2, "v", 0, true⟩], [], []⟩

/-- Witness for C4: redeeming at count 9 crosses the threshold of 10 and
adds exactly one loyalty transaction. -/
theorem loyalty_bonus_keyed_by_current_count_witness :
    loyaltyCount (handle_unlock dbQ 1 2 true).1 = 1 := by
  have h := loyalty_bonus_keyed_by_current_count dbQ 1 2 true ⟨1, 3, 9, true, none⟩
    ⟨2, "v", 0, true⟩ rfl (by decide) rfl
  rw [h]
  decide

/-! ## Delivery-failure compensation (C5) -/

theorem find?_map_update_self (l : List User) (uid : Nat) (f : User → User)
    (hf : ∀ u, (f u).id = u.id) :
    (l.map (fun u => if u.id == uid then f u else u)).find? (fun u => u.id == uid)
      = (l.find? (fun u => u.id == uid)).map f := by
  induction l with
  | nil => rfl
  | cons u l ih =>
    by_cases h : (u.id == uid) = true
    · have hpos : List.find? (fun v => v.id == uid) (u :: l) = some u :=
        List.find?_cons_of_pos _ h
      have hpos2 : List.find? (fun v => v.id == uid)
          (f u :: l.map (fun v => if v.id == uid then f v else v)) = some (f u) :=
        List.find?_cons_of_pos _ (by rw [hf u]; exact h)
      rw [List.map_cons, if_pos h, hpos2, hpos]
      rfl
    · have hneg : List.find? (fun v => v.id == uid) (u :: l) =
          List.find? (fun v => v.id == uid) l :=
        List.find?_cons_of_neg _ h
      have hneg2 : List.find? (fun v => v.id == uid)
          (u :: l.map (fun v => if v.id == uid then f v else v)) =
          List.find? (fun v => v.id == uid)
            (l.map (fun v => if v.id == uid then f v else v)) :=
        List.find?_cons_of_neg _ h
      rw [List.map_cons, if_neg h, hneg2, hneg, ih]

theorem getUser_updateUser_self (db : DB) (uid : Nat) (f : User → User)
    (hf : ∀ u, (f u).id = u.id) :
    getUser (updateUser db uid f) uid = (getUser db uid).map f :=
  find?_map_update_self db.users uid f hf

theorem getUser_addTxn (db : DB) (t : Txn) (uid : Nat) :
    getUser (addTxn db t) uid = getUser db uid := rfl

theorem getUser_incViews (db : DB) (cid uid : Nat) :
    getUser (incViews db cid) uid = getUser db uid := rfl

theorem getUser_unlockDebit (db : DB) (uid cid : Nat) (c : Content) :
    getUser (unlockDebit db uid cid c) uid =
      (getUser db uid).map
        (fun v => {v with tokens := v.tokens - 1, redemptions := v.redemptions + 1}) := by
  unfold unlockDebit
  rw [getUser_addTxn, getUser_incViews,
    getUser_updateUser_self db uid
      (fun v => {v with tokens := v.tokens - 1, redemptions := v.redemptions + 1})
      (fun u => rfl)]

theorem getUser_unlockLoyalty (db : DB) (uid : Nat) (n : Int) :
    getUser (unlockLoyalty db uid n) uid =
      if n % LOYALTY_THRESHOLD == 0 then
        (getUser db uid).map (fun v => {v with tokens := v.tokens + LOYALTY_BONUS})
      else getUser db uid := by
  unfold unlockLoyalty
  by_cases hn : (n % LOYALTY_THRESHOLD == 0) = true
  · rw [if_pos hn, if_pos hn, getUser_addTxn,
      getUser_updateUser_self db uid
        (fun v => {v with tokens := v.tokens + LOYALTY_BONUS}) (fun u => rfl)]
  · rw [if_neg hn, if_neg hn]

theorem getUser_unlockRefund (db : DB) (uid cid : Nat) :
    getUser (unlockRefund db uid cid) uid =
      (getUser db uid).map
        (fun v => {v with tokens := v.tokens + 1, redemptions := v.redemptions - 1}) := by
  unfold unlockRefund
  rw [getUser_addTxn,
    getUser_updateUser_self db uid
      (fun v => {v with tokens := v.tokens + 1, redemptions := v.redemptions - 1})
      (fun u => rfl)]

theorem txns_unlockDebit (db : DB) (uid cid : Nat) (c : Content) :
    (unlockDebit db uid cid c).transactions =
      db.transactions ++
        [⟨uid, -1, "redeem", "Unlocked: " ++ strTake c.caption 50, some cid⟩] := rfl

theorem txns_unlockLoyalty (db : DB) (uid : Nat) (n : Int) :
    (unlockLoyalty db uid n).transactions =
      db.transactions ++
        (if n % LOYALTY_THRESHOLD == 0 then
          [⟨uid, LOYALTY_BONUS, "loyalty_bonus",
            "Milestone reward for " ++ toString n ++ " redemptions", none⟩]
         else []) := by
  unfold unlockLoyalty
  by_cases hn : (n % LOYALTY_THRESHOLD == 0) = true
  · rw [if_pos hn, if_pos hn]; rfl
  · rw [if_neg hn, if_neg hn, List.append_nil]

theorem txns_unlockRefund (db : DB) (uid cid : Nat) :
    (unlockRefund db uid cid).transactions =
      db.transactions ++
        [⟨uid, 1, "refund", "Failed to send content " ++ toString (cid : Int), none⟩] := rfl

/-- C5 counterexample: at balance 2 and redemption count 9, a redemption
whose delivery fails leaves the balance at 7, not at the pre-redemption
value 2 — the loyalty bonus granted during the redemption is not
reversed — and the appended `refund` transaction has `content_id = none`
(the content id appears only in the description text). -/
theorem refund_balance_not_restored_when_loyalty_fired :
    (getUser dbL2 7).map User.tokens = some 2 ∧
    (getUser dbL2 7).map User.redemptions = some 9 ∧
    (getUser dbL3 7).map User.tokens = some 7 ∧
    (getUser dbL3 7).map User.redemptions = some 9 ∧
    dbL3.transactions.getLast? =
      some ⟨7, 1, "refund", "Failed to send content 1", none⟩ := by decide

/-- C5 (amended): when delivery fails after the debit, the compensation
credits 1 token back, decrements the redemption count, and appends a
`refund` transaction whose description names the content id but whose
`content_id` field is not set; the redemption count returns exactly to
its pre-redemption value, while the balance returns to the
pre-redemption value plus the loyalty bonus when the debit crossed a
loyalty threshold (the loyalty bonus is not reversed). -/
theorem delivery_failure_refund_behavior (db : DB) (uid cid : Nat)
    (u : User) (c : Content) (hg : getUser db uid = some u)
    (htk : ¬ u.tokens ≤ 0) (hc : findContent db cid = some c) :
    (getUser (handle_unlock db uid cid false).1 uid).map User.redemptions =
        some u.redemptions ∧
    (getUser (handle_unlock db uid cid false).1 uid).map User.tokens =
        some (u.tokens +
          (if (u.redemptions + 1) % LOYALTY_THRESHOLD == 0 then LOYALTY_BONUS else 0)) ∧
    (handle_unlock db uid cid false).1.transactions =
      db.transactions
        ++ [⟨uid, -1, "redeem", "Unlocked: " ++ strTake c.caption 50, some cid⟩]
        ++ (if (u.redemptions + 1) % LOYALTY_THRESHOLD == 0 then
              [⟨uid, LOYALTY_BONUS, "loyalty_bonus",
                "Milestone reward for " ++ toString (u.redemptions + 1) ++ " redemptions",
                none⟩]
            else [])
        ++ [⟨uid, 1, "refund", "Failed to send content " ++ toString (cid : Int), none⟩] ∧
    (handle_unlock db uid cid false).2 = UnlockResult.refunded := by
  rw [handle_unlock_eq_refunded db uid cid u c hg htk hc]
  refine ⟨?_, ?_, ?_, rfl⟩
  · show (getUser (unlockRefund
      (unlockLoyalty (unlockDebit db uid cid c) uid (u.redemptions + 1)) uid cid) uid).map
        User.redemptions = some u.redemptions
    rw [getUser_unlockRefund, getUser_unlockLoyalty, getUser_unlockDebit, hg]
    by_cases hn : ((u.redemptions + 1) % LOYALTY_THRESHOLD == 0) = true
    · rw [if_pos hn]
      simp only [Option.map_some', Option.some.injEq]
      omega
    · rw [if_neg hn]
      simp only [Option.map_some', Option.some.injEq]
      omega
  · show (getUser (unlockRefund
      (unlockLoyalty (unlockDebit db uid cid c) uid (u.redemptions + 1)) uid cid) uid).map
        User.tokens = _
    rw [getUser_unlockRefund, getUser_unlockLoyalty, getUser_unlockDebit, hg]
    by_cases hn : ((u.redemptions + 1) % LOYALTY_THRESHOLD == 0) = true
    · rw [if_pos hn, if_pos hn]
      simp only [Option.map_some', Option.some.injEq]
      omega
    · rw [if_neg hn, if_neg hn]
      simp only [Option.map_some', Option.some.injEq]
      omega
  · show (unlockRefund
      (unlockLoyalty (unlockDebit db uid cid c) uid (u.redemptions + 1)) uid cid).transactions = _
    rw [txns_unlockRefund, txns_unlockLoyalty, txns_unlockDebit]

/-- Witness for C5: redeeming at count 9 with delivery failure leaves
the count at 9 but the balance at 3 + 5 = 8, and reports a refund. -/
theorem delivery_failure_refund_behavior_witness :
    (getUser (handle_unlock dbQ 1 2 false).1 1).map User.redemptions = some 9 ∧
    (getUser (handle_unlock dbQ 1 2 false).1 1).map User.tokens = some 8 ∧
    (handle_unlock dbQ 1 2 false).2 = UnlockResult.refunded := by
  obtain ⟨h1, h2, h3, h4⟩ := delivery_failure_refund_behavior dbQ 1 2
    ⟨1, 3, 9, true, none⟩ ⟨2, "v", 0, true⟩ rfl (by decide) rfl
  refine ⟨h1, ?_, h4⟩
  rw [h2]
  decide

/-! ## Referral with an absent referrer (C6) -/

theorem referrals_addTxn (db : DB) (t : Txn) : (addTxn db t).referrals = db.referrals := rfl

theorem referrals_updateUser (db : DB) (uid : Nat) (f : User → User) :
    (updateUser db uid f).referrals = db.referrals := rfl

/-- C6 counterexample: creating account 2 with an absent referrer 99
performs no existence check — a referral record and a `referral_bonus`
transaction for user 99 are still inserted (the claim says neither may
exist), and the account is created with `referral_by = 99` attached
(the claim says it must be created without a referrer). -/
theorem unknown_referrer_still_creates_records :
    (start_command DB.empty 2 "a" (some 99)).referrals = [⟨99, 2, 2⟩] ∧
    (start_command DB.empty 2 "a" (some 99)).transactions =
      [⟨99, 2, "referral_bonus", "Referred user @a", none⟩,
       ⟨2, 1, "welcome_bonus", "Welcome to the platform", none⟩] ∧
    (start_command DB.empty 2 "a" (some 99)).users = [⟨2, 1, 0, true, some 99⟩] := by
  decide

/-- C6 (amended): when the referrer id does not correspond to any
existing account, no failure occurs and nothing is skipped: the referral
record and the `referral_bonus` transaction for the absent referrer are
inserted anyway, the referrer balance UPDATE matches no row (so no
existing user's balance changes), and the referred account is created
successfully with the absent referrer attached and its welcome bonus. -/
theorem start_with_absent_referrer_behavior (db : DB) (uid r : Nat) (un : String)
    (hnew : getUser db uid = none) (hrne : r ≠ uid) (habs : r ∉ DB.ids db) :
    (start_command db uid un (some r)).users = db.users ++ [⟨uid, 1, 0, true, some r⟩] ∧
    (start_command db uid un (some r)).transactions =
      db.transactions ++
        [⟨r, REFERRAL_BONUS, "referral_bonus", "Referred user @" ++ un, none⟩,
         ⟨uid, 1, "welcome_bonus", "Welcome to the platform", none⟩] ∧
    (start_command db uid un (some r)).referrals =
      db.referrals ++ [⟨r, uid, REFERRAL_BONUS⟩] := by
  have hrb : resolveReferrer uid (some r) = some r := by
    unfold resolveReferrer
    dsimp only
    rw [if_neg (fun hh => hrne (beq_iff_eq.mp hh))]
  have huid : uid ∉ DB.ids db := not_mem_ids_of_getUser_none db uid hnew
  have hur : (uid == r) = false := beq_eq_false_iff_ne.mpr (fun h => hrne h.symm)
  have huu : (uid == uid) = true := beq_iff_eq.mpr rfl
  rw [start_command_eq_new_ref db uid un (some r) r hnew hrb]
  have ha1 : db.users.map
      (fun u => if u.id == r then {u with tokens := u.tokens + REFERRAL_BONUS} else u) =
      db.users := by
    have hptw : ∀ u ∈ db.users,
        (if u.id == r then {u with tokens := u.tokens + REFERRAL_BONUS} else u) = u := by
      intro u hu
      rw [if_neg]
      intro hb
      exact habs (beq_iff_eq.mp hb ▸ List.mem_map_of_mem User.id hu)
    rw [List.map_congr_left hptw]
    exact List.map_id' db.users
  have ha3 : db.users.map
      (fun u => if u.id == uid then {u with tokens := u.tokens + 1} else u) =
      db.users := by
    have hptw : ∀ u ∈ db.users,
        (if u.id == uid then {u with tokens := u.tokens + 1} else u) = u := by
      intro u hu
      rw [if_neg]
      intro hb
      exact huid (beq_iff_eq.mp hb ▸ List.mem_map_of_mem User.id hu)
    rw [List.map_congr_left hptw]
    exact List.map_id' db.users
  refine ⟨?_, ?_, ?_⟩
  · simp only [users_addTxn, users_updateUser, List.map_append, List.map_cons, List.map_nil,
      ha1, ha3, hur, huu, Bool.false_eq_true, if_false, if_true]
    norm_num
  · simp only [txns_addTxn, txns_updateUser, List.append_assoc, List.singleton_append]
  · simp only [referrals_addTxn, referrals_updateUser]

/-- Witness for C6: empty database, new user 2, absent referrer 99. -/
theorem start_with_absent_referrer_behavior_witness :
    (start_command DB.empty 2 "b" (some 99)).users = [⟨2, 1, 0, true, some 99⟩] ∧
    (start_command DB.empty 2 "b" (some 99)).transactions =
      [⟨99, 2, "referral_bonus", "Referred user @b", none⟩,
       ⟨2, 1, "welcome_bonus", "Welcome to the platform", none⟩] ∧
    (start_command DB.empty 2 "b" (some 99)).referrals = [⟨99, 2, 2⟩] := by
  obtain ⟨h1, h2, h3⟩ :=
    start_with_absent_referrer_behavior DB.empty 2 99 "b" rfl (by decide) (by decide)
  exact ⟨h1, h2, h3⟩

/-! ## Two concurrent redemptions (C7)

`handle_unlock` performs its balance check (`user_data[0] <= 0`, a
read) and its debit (`UPDATE users SET tokens = tokens - 1`, an
unconditional write) as two separate steps.  The model below runs two
such calls against one shared balance, one validate/debit step at a
time, in any interleaving: each step is atomic (SQLite serializes
individual statements) but nothing serializes the read-then-write pair. -/

inductive CallPhase
  | idle
  | validated
  | done (success : Bool)
deriving DecidableEq, Repr

/-- Shared balance plus the control state of two in-flight redeem calls. -/
structure RaceState where
  tokens : Int
  callA : CallPhase
  callB : CallPhase
deriving DecidableEq, Repr

inductive RaceStep
  | validateA | debitA | validateB | debitB
deriving DecidableEq, Repr

/-- One atomic step: `validate` is the read-check (rejects iff the
balance it reads is non-positive), `debit` is the unconditional
decrement performed by a call whose validate passed. -/
def raceStep (s : RaceState) : RaceStep → RaceState
  | .validateA =>
    match s.callA with
    | .idle => if s.tokens ≤ 0 then {s with callA := .done false} else {s with callA := .validated}
    | _ => s
  | .debitA =>
    match s.callA with
    | .validated => {s with tokens := s.tokens - 1, callA := .done true}
    | _ => s
  | .validateB =>
    match s.callB with
    | .idle => if s.tokens ≤ 0 then {s with callB := .done false} else {s with callB := .validated}
    | _ => s
  | .debitB =>
    match s.callB with
    | .validated => {s with tokens := s.tokens - 1, callB := .done true}
    | _ => s

/-- Run a schedule of interleaved steps. -/
def raceRun (s : RaceState) (sched : List RaceStep) : RaceState :=
  sched.foldl raceStep s

/-- C7 counterexample: with one token and both validates scheduled
before either debit, BOTH redeem calls succeed and the balance reaches
-1 — the debit is an unconditional decrement, not an atomic conditional
decrement, so it guarantees nothing; the claim's "exactly one succeeds"
fails under interleaving. -/
theorem interleaved_redeems_both_succeed :
    raceRun ⟨1, .idle, .idle⟩ [.validateA, .validateB, .debitA, .debitB] =
      ⟨-1, .done true, .done true⟩ := by decide

/-- C7 (amended): with one token, exactly one of two redeem calls
succeeds (and the other is rejected with the insufficient-balance
answer) precisely because each call's validate-read and debit-write run
without interleaving — in the deployed bot the handler runs them
back-to-back on a single thread; the guarantee comes from that
serialization and the validate read, not from any atomic conditional
decrement in the debit step, which is an unconditional `tokens - 1`. -/
theorem sequential_redeems_exactly_one_succeeds :
    raceRun ⟨1, .idle, .idle⟩ [.validateA, .debitA, .validateB, .debitB] =
      ⟨0, .done true, .done false⟩ ∧
    raceRun ⟨1, .idle, .idle⟩ [.validateB, .debitB, .validateA, .debitA] =
      ⟨0, .done false, .done true⟩ := by decide

/-! ## Rate limiter (C8, C9) -/

/-- `n` consecutive `request` checks for `uid`, all at time `now`. -/
def repeatRequest (rl : RateLimiter) (uid now : Nat) : Nat → RateLimiter
  | 0 => rl
  | n+1 => (check_rate_limit (repeatRequest rl uid now n) uid "request" now).2

set_option maxRecDepth 8000 in
/-- C8: the window filter keeps a past call iff `(now - req).seconds < 60`,
i.e. iff the age modulo 86400 seconds is below 60 — not iff the call lies
in the trailing 60 seconds.  Failing input: 30 allowed requests at t = 0,
then one request at t = 86400 (one day later).  The trailing 60-second
window is empty (count 0 < 30), so the claim requires the call to be
allowed, but the limiter still counts all 30 day-old entries (age 86400,
`.seconds` component 0 < 60) and rejects it. -/
theorem rate_limiter_rejects_despite_empty_trailing_window :
    (check_rate_limit (repeatRequest RateLimiter.empty 1 0 29) 1 "request" 0).1 = true ∧
    (check_rate_limit (repeatRequest RateLimiter.empty 1 0 30) 1 "request" 86400).1 = false ∧
    specTrailingWindowCount
      ((repeatRequest RateLimiter.empty 1 0 30).user_requests 1) 86400 = 0 := by decide

/-- C9: any action string other than `request` and `redemption` falls
through both branches: the call is allowed unconditionally and the
limiter state is returned untouched. -/
theorem check_rate_limit_other_actions_noop (rl : RateLimiter) (uid now : Nat)
    (action : String) (h1 : action ≠ "request") (h2 : action ≠ "redemption") :
    check_rate_limit rl uid action now = (true, rl) := by
  unfold check_rate_limit
  rw [if_neg (fun hh => h1 (beq_iff_eq.mp hh)), if_neg (fun hh => h2 (beq_iff_eq.mp hh))]

/-- Witness for C9 at the concrete action string `purchase`. -/
theorem check_rate_limit_other_actions_noop_witness :
    check_rate_limit RateLimiter.empty 5 "purchase" 42 = (true, RateLimiter.empty) :=
  check_rate_limit_other_actions_noop RateLimiter.empty 5 42 "purchase"
    (by decide) (by decide)

/-! ## Bulk operation with an unknown operation string (C10) -/

theorem foldl_applyBulkOne_unknown (op : String) (a : Int)
    (h1 : op ≠ "add") (h2 : op ≠ "subtract") (h3 : op ≠ "set") :
    ∀ (ts : List Nat) (db : DB), ts.foldl (fun d uid => applyBulkOne d op a uid) db = db
  | [], _ => rfl
  | uid :: ts, db => by
    rw [List.foldl_cons, applyBulkOne_unknown db op a uid h1 h2 h3,
      foldl_applyBulkOne_unknown op a h1 h2 h3 ts]

/-- C10: for an operation string other than `add`, `subtract` and `set`,
no branch of the loop body runs — no balance changes and no transaction
is inserted — yet `affected_count` is still incremented once per target,
so the call returns the number of active users matching the filter. -/
theorem bulk_unknown_operation_counts_matches (db : DB) (op : String) (a : Int)
    (f : UserFilter) (h1 : op ≠ "add") (h2 : op ≠ "subtract") (h3 : op ≠ "set") :
    bulk_token_operation db op a f =
      (db, (db.users.filter (matchesFilter f)).length) := by
  unfold bulk_token_operation
  dsimp only
  rw [foldl_applyBulkOne_unknown op a h1 h2 h3, List.length_map]

/-- Witness for C10 at the operation string `noop`: the single active
user matches, so the count is 1, and the database is unchanged. -/
theorem bulk_unknown_operation_counts_matches_witness :
    bulk_token_operation dbT3 "noop" 7 {} = (dbT3, 1) := by
  rw [bulk_unknown_operation_counts_matches dbT3 "noop" 7 {}
    (by decide) (by decide) (by decide)]
  decide
